import Mathlib

/-!
Shallow embedding of the interactive annotation geometry engine of
`src/App.js` (the `ImageAnnotatorTab` pointer handlers, the hit test, the
ratio/pixel conversions, and the App-level "Delete Annotation" click
handler).

Coordinates are modelled as rationals: the handlers only use field
operations, `min`, `max` and absolute value on JavaScript numbers, which
agree with exact rational arithmetic away from division by zero; theorems
about stored ratios therefore carry positivity hypotheses on the displayed
size.  A handler call that would throw a TypeError in JavaScript (a
property access on `undefined`, e.g. `annotations[null]`) is modelled as
returning `none`.

Identifier note: the source type/field names `Annotation`,
`isDraggingAnnotation` and `isResizingAnnotation` are shortened here to
`Ann`, `isDraggingAnn` and `isResizingAnn`; all other names follow the
source.
-/

/-- A point in container-local pixel coordinates. -/
structure Pt where
  x : ℚ
  y : ℚ
deriving DecidableEq

/-- A pixel rectangle `{x, y, width, height}` as used by `currentRect`,
`initialAnnotationRect` and `getAnnotationPixels`. -/
structure Rect where
  x : ℚ
  y : ℚ
  width : ℚ
  height : ℚ
deriving DecidableEq

/-- The `apiDetails` metadata record attached to each annotation; a
parameter is a `{key, type}` pair. -/
structure ApiDetails where
  name : String
  endpoint : String
  method : String
  requestBody : String
  responseBody : String
  parameters : List (String × String)
  description : String
deriving DecidableEq

/-- One annotation record (source name: `Annotation`): an opaque id,
geometry stored as ratios of the displayed image size, and metadata. -/
structure Ann where
  id : String
  ratioX : ℚ
  ratioY : ℚ
  ratioWidth : ℚ
  ratioHeight : ℚ
  apiDetails : ApiDetails
deriving DecidableEq

/-- The active tool (`activeTool`): `'select'` or `'draw'`. -/
inductive Tool
  | select
  | draw
deriving DecidableEq

/-- The eight resize handles, i.e. the possible `data-resize-handle`
values rendered on a selected annotation. -/
inductive Handle
  | n
  | ne
  | e
  | se
  | s
  | sw
  | w
  | nw
deriving DecidableEq

/-- Ambient view context read by the handlers: presence of the image url
and of the wrapper/img refs, the `imageLoaded` flag, the wrapper's
bounding-rect offset, and the img element's displayed pixel size. -/
structure Env where
  imageUrlPresent : Bool
  wrapperPresent : Bool
  imgPresent : Bool
  imageLoaded : Bool
  rectLeft : ℚ
  rectTop : ℚ
  displayedWidth : ℚ
  displayedHeight : ℚ
deriving DecidableEq

/-- A pointer event: client coordinates and the `data-resize-handle` tag
of the event target, when present. -/
structure MouseEvent where
  clientX : ℚ
  clientY : ℚ
  targetResizeHandle : Option Handle
deriving DecidableEq

/-- The `ImageAnnotatorTab` component state together with the lifted
`selectedAnnotationIndex` and the current annotation list of the image. -/
structure EngineState where
  isDrawing : Bool
  startPoint : Pt
  currentRect : Rect
  isDraggingAnn : Bool
  isResizingAnn : Bool
  dragOffset : Pt
  resizeHandle : Option Handle
  initialAnnotationRect : Option Rect
  initialMousePos : Pt
  selectedAnnotationIndex : Option Nat
  annotations : List Ann
deriving DecidableEq

/-- `getAnnotationPixels`: the pixel rectangle of an annotation, computed
against the img ref's displayed size when the ref is present and against
`0` otherwise. -/
def getAnnotationPixels (env : Env) (a : Ann) : Rect :=
  let displayedWidth : ℚ := if env.imgPresent then env.displayedWidth else 0
  let displayedHeight : ℚ := if env.imgPresent then env.displayedHeight else 0
  { x := a.ratioX * displayedWidth
    y := a.ratioY * displayedHeight
    width := a.ratioWidth * displayedWidth
    height := a.ratioHeight * displayedHeight }

/-- `Array.prototype.findIndex` with `none` for `-1`: the index of the
first element satisfying `p`, counting from `k`. -/
def findIndexFrom {α : Type} (p : α → Bool) (k : Nat) : List α → Option Nat
  | [] => none
  | a :: rest => if p a then some k else findIndexFrom p (k + 1) rest

/-- `Array.prototype.findIndex` with `none` for `-1`. -/
def findIndex {α : Type} (p : α → Bool) (l : List α) : Option Nat :=
  findIndexFrom p 0 l

/-- The containment test used by the pointer-down hit test: inclusive on
all four edges. -/
def rectContains (r : Rect) (px py : ℚ) : Bool :=
  decide (r.x ≤ px) && decide (px ≤ r.x + r.width) &&
  decide (r.y ≤ py) && decide (py ≤ r.y + r.height)

/-- The hit test of `handleMouseDown`: the first annotation, in list
order, whose pixel rectangle contains the local pointer position. -/
def hitTest (env : Env) (anns : List Ann) (px py : ℚ) : Option Nat :=
  findIndex (fun a => rectContains (getAnnotationPixels env a) px py) anns

/-- The common guard of `handleMouseDown` and `handleMouseMove`:
`imageUrl && imageWrapperRef.current && imgRef.current && imageLoaded`. -/
def Env.ready (env : Env) : Bool :=
  env.imageUrlPresent && env.wrapperPresent && env.imgPresent && env.imageLoaded

/-- The draw branch of `handleMouseDown`: start drawing at the local
pointer position, deselect, and clear dragging/resizing. -/
def startDrawing (s : EngineState) (clientX clientY : ℚ) : EngineState :=
  { s with
    isDrawing := true
    startPoint := { x := clientX, y := clientY }
    currentRect := { x := clientX, y := clientY, width := 0, height := 0 }
    selectedAnnotationIndex := none
    isDraggingAnn := false
    isResizingAnn := false }

/-- `handleMouseDown`.  Returns the unchanged state when the loading guard
fails, and `none` when the JavaScript handler would throw (the
resize-handle branch reads `annotations[selectedAnnotationIndex]`, which
is `undefined` when no valid annotation is selected). -/
def handleMouseDown (env : Env) (activeTool : Tool) (s : EngineState)
    (ev : MouseEvent) : Option EngineState :=
  if env.ready then
    let clientX := ev.clientX - env.rectLeft
    let clientY := ev.clientY - env.rectTop
    match ev.targetResizeHandle with
    | some h =>
      match s.selectedAnnotationIndex.bind (fun i => s.annotations.get? i) with
      | none => none
      | some a =>
        some { s with
          isResizingAnn := true
          resizeHandle := some h
          initialAnnotationRect := some (getAnnotationPixels env a)
          initialMousePos := { x := clientX, y := clientY } }
    | none =>
      match hitTest env s.annotations clientX clientY with
      | some i =>
        if activeTool = Tool.select then
          match s.annotations.get? i with
          | none => none
          | some a =>
            let annPixels := getAnnotationPixels env a
            some { s with
              selectedAnnotationIndex := some i
              isDraggingAnn := true
              dragOffset := { x := clientX - annPixels.x, y := clientY - annPixels.y }
              isDrawing := false }
        else
          some (startDrawing s clientX clientY)
      | none =>
        if activeTool = Tool.draw then
          some (startDrawing s clientX clientY)
        else
          some { s with
            selectedAnnotationIndex := none
            isDrawing := false
            isDraggingAnn := false
            isResizingAnn := false }
  else some s

/-- `Array.prototype.map((x, idx) => f idx x)`, counting from `k`. -/
def mapIdxFrom {α : Type} (f : Nat → α → α) (k : Nat) : List α → List α
  | [] => []
  | a :: rest => f k a :: mapIdxFrom f (k + 1) rest

/-- `Array.prototype.map((x, idx) => f idx x)`. -/
def mapWithIndex {α : Type} (f : Nat → α → α) (l : List α) : List α :=
  mapIdxFrom f 0 l

/-- The `switch (resizeHandle)` of the resizing branch of
`handleMouseMove`: transform the anchor rectangle `initialAnnotationRect`
by the pointer delta `(dx, dy)` from `initialMousePos`; the `default`
case (no recognised handle) leaves the rectangle unchanged. -/
def applyResizeHandle (h : Option Handle) (r0 : Rect) (dx dy : ℚ) : Rect :=
  match h with
  | some Handle.n => { r0 with height := r0.height - dy, y := r0.y + dy }
  | some Handle.ne => { r0 with width := r0.width + dx, height := r0.height - dy, y := r0.y + dy }
  | some Handle.e => { r0 with width := r0.width + dx }
  | some Handle.se => { r0 with width := r0.width + dx, height := r0.height + dy }
  | some Handle.s => { r0 with height := r0.height + dy }
  | some Handle.sw => { r0 with width := r0.width - dx, x := r0.x + dx, height := r0.height + dy }
  | some Handle.w => { r0 with width := r0.width - dx, x := r0.x + dx }
  | some Handle.nw => { r0 with width := r0.width - dx, x := r0.x + dx, height := r0.height - dy, y := r0.y + dy }
  | none => r0

/-- The clamping after the resize switch: enforce the 10px minimum width
and height, then clamp the top-left into the image. -/
def clampResized (r : Rect) (dW dH : ℚ) : Rect :=
  let width := max r.width 10
  let height := max r.height 10
  let x := max 0 (min r.x (dW - width))
  let y := max 0 (min r.y (dH - height))
  { x := x, y := y, width := width, height := height }

/-- `handleMouseMove`: update the drawing preview, or live-move the
selected annotation (dragging), or live-resize it (resizing).  Returns
the unchanged state when the guard fails or no branch is active, and
`none` when the dragging branch would throw
(`annotations[selectedAnnotationIndex]` is `undefined`). -/
def handleMouseMove (env : Env) (s : EngineState) (ev : MouseEvent) :
    Option EngineState :=
  if env.ready then
    let clientX := ev.clientX - env.rectLeft
    let clientY := ev.clientY - env.rectTop
    let displayedWidth := env.displayedWidth
    let displayedHeight := env.displayedHeight
    if s.isDrawing then
      let newX := min s.startPoint.x clientX
      let newY := min s.startPoint.y clientY
      let newWidth := |clientX - s.startPoint.x|
      let newHeight := |clientY - s.startPoint.y|
      some { s with currentRect := { x := newX, y := newY, width := newWidth, height := newHeight } }
    else
      match s.isDraggingAnn, s.selectedAnnotationIndex with
      | true, some i =>
        let newX := clientX - s.dragOffset.x
        let newY := clientY - s.dragOffset.y
        match s.annotations.get? i with
        | none => none
        | some a =>
          let currentAnnPixels := getAnnotationPixels env a
          let boundedX := max 0 (min newX (displayedWidth - currentAnnPixels.width))
          let boundedY := max 0 (min newY (displayedHeight - currentAnnPixels.height))
          let updated := mapWithIndex (fun idx ann =>
            if idx = i then
              { ann with ratioX := boundedX / displayedWidth, ratioY := boundedY / displayedHeight }
            else ann) s.annotations
          some { s with annotations := updated }
      | _, _ =>
        match s.isResizingAnn, s.selectedAnnotationIndex, s.initialAnnotationRect with
        | true, some i, some r0 =>
          let dx := clientX - s.initialMousePos.x
          let dy := clientY - s.initialMousePos.y
          let r := clampResized (applyResizeHandle s.resizeHandle r0 dx dy) displayedWidth displayedHeight
          let updated := mapWithIndex (fun idx ann =>
            if idx = i then
              { ann with
                ratioX := r.x / displayedWidth
                ratioY := r.y / displayedHeight
                ratioWidth := r.width / displayedWidth
                ratioHeight := r.height / displayedHeight }
            else ann) s.annotations
          some { s with annotations := updated }
        | _, _, _ => some s
  else some s

/-- The default `apiDetails` given to a newly committed annotation. -/
def defaultApiDetails : ApiDetails :=
  { name := ""
    endpoint := ""
    method := "GET"
    requestBody := ""
    responseBody := ""
    parameters := []
    description := "" }

/-- The new annotation committed on mouse-up (source name:
`newAnnotation`), its rectangle converted to ratios against the
displayed size. -/
def newAnnOfRect (newId : String) (r : Rect) (dW dH : ℚ) : Ann :=
  { id := newId
    ratioX := r.x / dW
    ratioY := r.y / dH
    ratioWidth := r.width / dW
    ratioHeight := r.height / dH
    apiDetails := defaultApiDetails }

/-- The common tail of `handleMouseUp`: clear dragging/resizing state and
their transient fields. -/
def clearTransient (t : EngineState) : EngineState :=
  { t with
    isDraggingAnn := false
    isResizingAnn := false
    dragOffset := { x := 0, y := 0 }
    resizeHandle := none
    initialAnnotationRect := none
    initialMousePos := { x := 0, y := 0 } }

/-- `handleMouseUp`: when drawing, commit the preview rectangle as a new
annotation iff both its sides exceed 5px, selecting the new last index;
then unconditionally clear all transient interaction state.  `none`
models the TypeError thrown when the commit branch reads
`imgRef.current.offsetWidth` while the img ref is absent. -/
def handleMouseUp (env : Env) (s : EngineState) (newId : String) :
    Option EngineState :=
  if s.isDrawing then
    if 5 < s.currentRect.width ∧ 5 < s.currentRect.height then
      if env.imgPresent then
        let updated := s.annotations ++
          [newAnnOfRect newId s.currentRect env.displayedWidth env.displayedHeight]
        some (clearTransient { s with
          isDrawing := false
          annotations := updated
          selectedAnnotationIndex := some (updated.length - 1)
          currentRect := { x := 0, y := 0, width := 0, height := 0 } })
      else none
    else
      some (clearTransient { s with
        isDrawing := false
        currentRect := { x := 0, y := 0, width := 0, height := 0 } })
  else some (clearTransient s)

/-- `Array.prototype.filter((x, idx) => p idx)`, counting from `k`. -/
def filterIdxFrom {α : Type} (p : Nat → Bool) (k : Nat) : List α → List α
  | [] => []
  | a :: rest =>
    if p k then a :: filterIdxFrom p (k + 1) rest else filterIdxFrom p (k + 1) rest

/-- The App-level "Delete Annotation" click handler: drop the entry at the
selected index and clear the selection; returns the replacement list and
the new selected index. -/
def deleteAnnClick (anns : List Ann) (selIdx : Nat) : List Ann × Option Nat :=
  (filterIdxFrom (fun idx => idx != selIdx) 0 anns, none)

/-- A concrete view context used by witnesses: image loaded, refs present,
no container offset, displayed size 800 × 600. -/
def wEnv : Env :=
  { imageUrlPresent := true, wrapperPresent := true, imgPresent := true,
    imageLoaded := true, rectLeft := 0, rectTop := 0,
    displayedWidth := 800, displayedHeight := 600 }

/-- A concrete annotation with the given geometry and default metadata. -/
def annAt (idStr : String) (rx ry rw rh : ℚ) : Ann :=
  { id := idStr, ratioX := rx, ratioY := ry, ratioWidth := rw, ratioHeight := rh,
    apiDetails := defaultApiDetails }

/-- A concrete idle engine state over a given annotation list. -/
def idleState (anns : List Ann) (sel : Option Nat) : EngineState :=
  { isDrawing := false
    startPoint := { x := 0, y := 0 }
    currentRect := { x := 0, y := 0, width := 0, height := 0 }
    isDraggingAnn := false
    isResizingAnn := false
    dragOffset := { x := 0, y := 0 }
    resizeHandle := none
    initialAnnotationRect := none
    initialMousePos := { x := 0, y := 0 }
    selectedAnnotationIndex := sel
    annotations := anns }

/-- Context for the C2 counterexample: 100 × 100 displayed image. -/
def dragCexEnv : Env :=
  { imageUrlPresent := true, wrapperPresent := true, imgPresent := true,
    imageLoaded := true, rectLeft := 0, rectTop := 0,
    displayedWidth := 100, displayedHeight := 100 }

/-- State for the C2 counterexample: dragging annotation 0, whose ratio
width 2 makes its pixel width 200 exceed the 100px image. -/
def dragCexState : EngineState :=
  { idleState [annAt "big" 0 0 2 1] (some 0) with isDraggingAnn := true }

/-- Event for the C2 counterexample: pointer at local (0, 0). -/
def dragCexEv : MouseEvent :=
  { clientX := 0, clientY := 0, targetResizeHandle := none }

/-- State used by the C5 witness: resizing annotation 0 by the se handle,
anchor rect (100, 75, 200, 150), anchor pointer (300, 225). -/
def resizeWState : EngineState :=
  { idleState [annAt "r" (1/8) (1/8) (1/4) (1/4)] (some 0) with
    isResizingAnn := true
    resizeHandle := some Handle.se
    initialAnnotationRect := some { x := 100, y := 75, width := 200, height := 150 }
    initialMousePos := { x := 300, y := 225 } }

/-- Context for C7: image reported as loaded with displayed size 0 × 0. -/
def zeroEnv : Env :=
  { imageUrlPresent := true, wrapperPresent := true, imgPresent := true,
    imageLoaded := true, rectLeft := 0, rectTop := 0,
    displayedWidth := 0, displayedHeight := 0 }

/-! ## Lemmas about the indexed list operations -/

theorem findIndexFrom_shift {α : Type} (p : α → Bool) (k : Nat) (l : List α) :
    findIndexFrom p k l = Option.map (fun j => k + j) (findIndexFrom p 0 l) := by
  induction l generalizing k with
  | nil => rfl
  | cons a rest ih =>
    by_cases h : p a
    · simp [findIndexFrom, h]
    · simp only [findIndexFrom, h, Bool.false_eq_true, if_false]
      rw [ih (k + 1), ih 1, Option.map_map]
      congr 1
      funext j
      simp
      omega

theorem findIndex_eq_some_iff {α : Type} (p : α → Bool) (l : List α) (i : Nat) :
    findIndex p l = some i ↔
      (∃ a, l.get? i = some a ∧ p a = true) ∧
      ∀ j a, j < i → l.get? j = some a → p a = false := by
  induction l generalizing i with
  | nil => simp [findIndex, findIndexFrom]
  | cons a rest ih =>
    rw [findIndex, findIndexFrom, findIndexFrom_shift p 1 rest]
    by_cases h : p a
    · simp only [h, if_true]
      cases i with
      | zero => simp [h]
      | succ i2 =>
        constructor
        · intro hc
          exact absurd hc (by simp)
        · rintro ⟨-, hall⟩
          exact absurd (hall 0 a (Nat.succ_pos i2) rfl) (by simp [h])
    · simp only [h, Bool.false_eq_true, if_false]
      have hrw : findIndex p rest = findIndexFrom p 0 rest := rfl
      cases i with
      | zero =>
        constructor
        · intro hc
          exact absurd hc (by simp)
        · rintro ⟨⟨b, hb, hpb⟩, -⟩
          simp only [List.get?_cons_zero, Option.some.injEq] at hb
          subst hb
          exact absurd hpb (by simp [h])
      | succ i2 =>
        constructor
        · intro hc
          simp only [Option.map_eq_some'] at hc
          obtain ⟨j, hj, hadd⟩ := hc
          have hji : j = i2 := by omega
          subst hji
          rw [← hrw] at hj
          obtain ⟨hex, hall⟩ := (ih j).mp hj
          constructor
          · simpa using hex
          · intro j2 b hj2 hb
            cases j2 with
            | zero =>
              simp only [List.get?_cons_zero, Option.some.injEq] at hb
              subst hb
              simpa using h
            | succ j3 =>
              exact hall j3 b (by omega) (by simpa using hb)
        · rintro ⟨hex, hall⟩
          have hsome : findIndex p rest = some i2 := by
            refine (ih i2).mpr ⟨by simpa using hex, ?_⟩
            intro j b hj hb
            exact hall (j + 1) b (by omega) (by simpa using hb)
          rw [hrw] at hsome
          simp [hsome]
          omega

theorem mapIdxFrom_length {α : Type} (f : Nat → α → α) (k : Nat) (l : List α) :
    (mapIdxFrom f k l).length = l.length := by
  induction l generalizing k with
  | nil => rfl
  | cons a rest ih => simp [mapIdxFrom, ih]

theorem mapIdxFrom_get? {α : Type} (f : Nat → α → α) (k j : Nat) (l : List α) :
    (mapIdxFrom f k l).get? j = (l.get? j).map (f (k + j)) := by
  induction l generalizing k j with
  | nil => simp [mapIdxFrom]
  | cons a rest ih =>
    cases j with
    | zero => simp [mapIdxFrom]
    | succ j2 =>
      simp only [mapIdxFrom, List.get?_cons_succ]
      rw [ih (k + 1) j2]
      have harg : k + 1 + j2 = k + (j2 + 1) := by omega
      rw [harg]

theorem mapWithIndex_length {α : Type} (f : Nat → α → α) (l : List α) :
    (mapWithIndex f l).length = l.length :=
  mapIdxFrom_length f 0 l

theorem mapWithIndex_get? {α : Type} (f : Nat → α → α) (j : Nat) (l : List α) :
    (mapWithIndex f l).get? j = (l.get? j).map (f j) := by
  rw [mapWithIndex, mapIdxFrom_get?]
  simp

theorem filterIdxFrom_ne_of_lt {α : Type} (i k : Nat) (h : i < k) (l : List α) :
    filterIdxFrom (fun idx => idx != i) k l = l := by
  induction l generalizing k with
  | nil => rfl
  | cons a rest ih =>
    have hk : (k != i) = true := by simp; omega
    simp [filterIdxFrom, hk, ih (k + 1) (by omega)]

theorem filterIdxFrom_ne_eq_take_drop {α : Type} (i k : Nat) (l : List α) :
    filterIdxFrom (fun idx => idx != (k + i)) k l = l.take i ++ l.drop (i + 1) := by
  induction l generalizing i k with
  | nil => simp [filterIdxFrom]
  | cons a rest ih =>
    cases i with
    | zero =>
      have hk : (k != k + 0) = false := by simp
      simp only [filterIdxFrom, hk, Bool.false_eq_true, if_false]
      have hrest : filterIdxFrom (fun idx => idx != k) (k + 1) rest = rest :=
        filterIdxFrom_ne_of_lt k (k + 1) (by omega) rest
      simp only [Nat.add_zero] at hrest ⊢
      rw [hrest]
      simp
    | succ i2 =>
      have hk : (k != k + (i2 + 1)) = true := by simp
      simp only [filterIdxFrom, hk, if_true]
      have harg : k + (i2 + 1) = (k + 1) + i2 := by omega
      rw [harg, ih i2 (k + 1)]
      simp

/-! ## Claim theorems -/

/-- C4: converting a pixel rectangle to ratios against the displayed size
`(W, H)` (as done at commit by `handleMouseUp`) and back to pixels against
the same size (as done by `getAnnotationPixels`) reproduces the original
rectangle exactly. -/
theorem ratio_pixel_roundtrip (env : Env) (newId : String) (r : Rect)
    (himg : env.imgPresent = true)
    (hW : env.displayedWidth ≠ 0) (hH : env.displayedHeight ≠ 0) :
    getAnnotationPixels env (newAnnOfRect newId r env.displayedWidth env.displayedHeight) = r := by
  obtain ⟨rx, ry, rw, rh⟩ := r
  simp [getAnnotationPixels, newAnnOfRect, himg, div_mul_cancel₀, hW, hH]

/-- C4 witness: the round-trip at size 800 × 600 on the rectangle
(100, 100, 200, 150). -/
theorem ratio_pixel_roundtrip_witness :
    getAnnotationPixels
      { imageUrlPresent := true, wrapperPresent := true, imgPresent := true,
        imageLoaded := true, rectLeft := 0, rectTop := 0,
        displayedWidth := 800, displayedHeight := 600 }
      (newAnnOfRect "id1" { x := 100, y := 100, width := 200, height := 150 } 800 600) =
      { x := 100, y := 100, width := 200, height := 150 } :=
  ratio_pixel_roundtrip
    { imageUrlPresent := true, wrapperPresent := true, imgPresent := true,
      imageLoaded := true, rectLeft := 0, rectTop := 0,
      displayedWidth := 800, displayedHeight := 600 }
    "id1" { x := 100, y := 100, width := 200, height := 150 } rfl
    (by norm_num) (by norm_num)

/-- C6: the pointer-down hit test returns the first (lowest-index)
annotation, in list order, whose pixel rectangle contains the local
pointer position, with inclusive bounds on all four edges; when several
annotations contain the point the lowest index wins. -/
theorem hit_first_match (env : Env) (anns : List Ann) (px py : ℚ) (i : Nat) :
    (hitTest env anns px py = some i ↔
      (∃ a, anns.get? i = some a ∧ rectContains (getAnnotationPixels env a) px py = true) ∧
      ∀ j a, j < i → anns.get? j = some a →
        rectContains (getAnnotationPixels env a) px py = false) ∧
    ∀ r : Rect, rectContains r px py = true ↔
      r.x ≤ px ∧ px ≤ r.x + r.width ∧ r.y ≤ py ∧ py ≤ r.y + r.height := by
  constructor
  · exact findIndex_eq_some_iff (fun a => rectContains (getAnnotationPixels env a) px py) anns i
  · intro r
    simp [rectContains]
    tauto

/-- C6 witness: two identical half-size annotations both contain the point
(100, 100) at size 800 × 600, and the hit test returns index 0. -/
theorem hit_first_match_witness :
    hitTest wEnv [annAt "a" 0 0 (1/2) (1/2), annAt "b" 0 0 (1/2) (1/2)] 100 100 = some 0 :=
  (hit_first_match wEnv [annAt "a" 0 0 (1/2) (1/2), annAt "b" 0 0 (1/2) (1/2)] 100 100 0).1.mpr
    ⟨⟨annAt "a" 0 0 (1/2) (1/2), rfl, by
        simp [rectContains, getAnnotationPixels, annAt, wEnv]
        norm_num⟩,
      fun j a hj _ => absurd hj (Nat.not_lt_zero j)⟩

/-- C8: the Delete Annotation click handler clears the selection and
removes exactly the entry at the selected index, leaving every other
annotation unchanged and in order. -/
theorem delete_selected_entry (anns : List Ann) (i : Nat) (h : i < anns.length) :
    (deleteAnnClick anns i).2 = none ∧
    (deleteAnnClick anns i).1 = anns.take i ++ anns.drop (i + 1) ∧
    (deleteAnnClick anns i).1.length = anns.length - 1 := by
  have heq : (deleteAnnClick anns i).1 = anns.take i ++ anns.drop (i + 1) := by
    have hfil := filterIdxFrom_ne_eq_take_drop i 0 anns
    simpa [deleteAnnClick] using hfil
  refine ⟨rfl, heq, ?_⟩
  rw [heq]
  simp
  omega

/-- C8 witness: deleting index 1 of a three-element list keeps entries 0
and 2 in order, shortens the list by one, and clears the selection. -/
theorem delete_selected_entry_witness :
    (deleteAnnClick [annAt "a" 0 0 1 1, annAt "b" 0 0 1 1, annAt "c" 0 0 1 1] 1).2 = none ∧
    (deleteAnnClick [annAt "a" 0 0 1 1, annAt "b" 0 0 1 1, annAt "c" 0 0 1 1] 1).1 =
      [annAt "a" 0 0 1 1, annAt "b" 0 0 1 1, annAt "c" 0 0 1 1].take 1 ++
        [annAt "a" 0 0 1 1, annAt "b" 0 0 1 1, annAt "c" 0 0 1 1].drop 2 ∧
    (deleteAnnClick [annAt "a" 0 0 1 1, annAt "b" 0 0 1 1, annAt "c" 0 0 1 1] 1).1.length =
      [annAt "a" 0 0 1 1, annAt "b" 0 0 1 1, annAt "c" 0 0 1 1].length - 1 :=
  delete_selected_entry [annAt "a" 0 0 1 1, annAt "b" 0 0 1 1, annAt "c" 0 0 1 1] 1
    (by simp)

/-- C3: a pointer-down whose target carries a resize-handle tag, while an
annotation is selected, enters Resizing (not Dragging, not Drawing),
records the anchor rectangle as the selected annotation's pixel rect and
the anchor pointer position as the local pointer position, and leaves the
selected index unchanged — for every active tool and regardless of any
hit-test outcome. -/
theorem resize_priority (env : Env) (tool : Tool) (s : EngineState) (ev : MouseEvent)
    (h : Handle) (i : Nat) (a : Ann)
    (hready : env.ready = true)
    (hh : ev.targetResizeHandle = some h)
    (hsel : s.selectedAnnotationIndex = some i)
    (ha : s.annotations.get? i = some a)
    (hdraw : s.isDrawing = false)
    (hdrag : s.isDraggingAnn = false) :
    ∃ s2, handleMouseDown env tool s ev = some s2 ∧
      s2.isResizingAnn = true ∧ s2.isDraggingAnn = false ∧ s2.isDrawing = false ∧
      s2.selectedAnnotationIndex = some i ∧
      s2.resizeHandle = some h ∧
      s2.initialAnnotationRect = some (getAnnotationPixels env a) ∧
      s2.initialMousePos = { x := ev.clientX - env.rectLeft, y := ev.clientY - env.rectTop } ∧
      s2.annotations = s.annotations := by
  refine ⟨{ s with
      isResizingAnn := true
      resizeHandle := some h
      initialAnnotationRect := some (getAnnotationPixels env a)
      initialMousePos := { x := ev.clientX - env.rectLeft, y := ev.clientY - env.rectTop } },
    ?_, rfl, hdrag, hdraw, hsel, rfl, rfl, rfl, rfl⟩
  simp only [handleMouseDown, hready, if_true, hh, hsel, Option.some_bind, ha]

/-- C3 witness: pointer-down on a tagged nw handle with annotation 0
selected, select tool active, at local (120, 130). -/
theorem resize_priority_witness :
    ∃ s2, handleMouseDown wEnv Tool.select (idleState [annAt "x" 0 0 (1/4) (1/4)] (some 0))
        { clientX := 120, clientY := 130, targetResizeHandle := some Handle.nw } = some s2 ∧
      s2.isResizingAnn = true ∧ s2.isDraggingAnn = false ∧ s2.isDrawing = false ∧
      s2.selectedAnnotationIndex = some 0 ∧
      s2.resizeHandle = some Handle.nw ∧
      s2.initialAnnotationRect = some (getAnnotationPixels wEnv (annAt "x" 0 0 (1/4) (1/4))) ∧
      s2.initialMousePos = { x := (120:ℚ) - wEnv.rectLeft, y := (130:ℚ) - wEnv.rectTop } ∧
      s2.annotations = (idleState [annAt "x" 0 0 (1/4) (1/4)] (some 0)).annotations :=
  resize_priority wEnv Tool.select (idleState [annAt "x" 0 0 (1/4) (1/4)] (some 0))
    { clientX := 120, clientY := 130, targetResizeHandle := some Handle.nw }
    Handle.nw 0 (annAt "x" 0 0 (1/4) (1/4)) rfl rfl rfl rfl rfl rfl

/-- Commit case of `handleMouseUp`: when drawing and both preview sides
exceed 5px (and the img ref is present), the preview is appended as a new
annotation, converted to ratios, and its index is selected. -/
theorem handleMouseUp_commit (env : Env) (s : EngineState) (newId : String)
    (hdraw : s.isDrawing = true)
    (hcw : 5 < s.currentRect.width) (hch : 5 < s.currentRect.height)
    (himg : env.imgPresent = true) :
    handleMouseUp env s newId = some (clearTransient { s with
      isDrawing := false
      annotations := s.annotations ++
        [newAnnOfRect newId s.currentRect env.displayedWidth env.displayedHeight]
      selectedAnnotationIndex := some s.annotations.length
      currentRect := { x := 0, y := 0, width := 0, height := 0 } }) := by
  simp [handleMouseUp, hdraw, hcw, hch, himg]

/-- Discard case of `handleMouseUp`: when drawing but the preview is at or
below the 5px threshold on either side, no annotation is committed. -/
theorem handleMouseUp_nocommit (env : Env) (s : EngineState) (newId : String)
    (hdraw : s.isDrawing = true)
    (hnc : ¬(5 < s.currentRect.width ∧ 5 < s.currentRect.height)) :
    handleMouseUp env s newId = some (clearTransient { s with
      isDrawing := false
      currentRect := { x := 0, y := 0, width := 0, height := 0 } }) := by
  simp only [handleMouseUp, hdraw, if_true, hnc, if_false]

/-- C1: with the draw tool active, the view ready, and no resize handle
hit, a pointer-down at local (sx, sy), a pointer-move to local (x, y) and
a pointer-up append a new annotation if and only if the preview exceeds
5px in both dimensions; on commit the preview rectangle is stored as
ratios of the displayed size with default metadata and the new last index
becomes the selected index, otherwise the list is unchanged. -/
theorem draw_commit_iff (env : Env) (s0 : EngineState) (sx sy x y : ℚ) (newId : String)
    (hready : env.ready = true)
    (hW : 0 < env.displayedWidth) (hH : 0 < env.displayedHeight) :
    ∃ s3,
      ((handleMouseDown env Tool.draw s0
          { clientX := env.rectLeft + sx, clientY := env.rectTop + sy,
            targetResizeHandle := none }).bind
        (fun s1 => handleMouseMove env s1
          { clientX := env.rectLeft + x, clientY := env.rectTop + y,
            targetResizeHandle := none })).bind
        (fun s2 => handleMouseUp env s2 newId) = some s3 ∧
      (s3.annotations.length = s0.annotations.length + 1 ↔ 5 < |x - sx| ∧ 5 < |y - sy|) ∧
      (5 < |x - sx| ∧ 5 < |y - sy| →
        s3.annotations = s0.annotations ++
          [newAnnOfRect newId
            { x := min sx x, y := min sy y, width := |x - sx|, height := |y - sy| }
            env.displayedWidth env.displayedHeight] ∧
        s3.selectedAnnotationIndex = some s0.annotations.length) ∧
      (¬(5 < |x - sx| ∧ 5 < |y - sy|) → s3.annotations = s0.annotations) := by
  have himg : env.imgPresent = true := by
    have h2 := hready
    simp [Env.ready] at h2
    tauto
  have hxs : env.rectLeft + sx - env.rectLeft = sx := by ring
  have hys : env.rectTop + sy - env.rectTop = sy := by ring
  have hxx : env.rectLeft + x - env.rectLeft = x := by ring
  have hyy : env.rectTop + y - env.rectTop = y := by ring
  have hdown : handleMouseDown env Tool.draw s0
      { clientX := env.rectLeft + sx, clientY := env.rectTop + sy,
        targetResizeHandle := none } = some (startDrawing s0 sx sy) := by
    simp only [handleMouseDown, hready, if_true, hxs, hys]
    cases hitTest env s0.annotations sx sy with
    | none => simp
    | some i => simp
  have hmove : handleMouseMove env (startDrawing s0 sx sy)
      { clientX := env.rectLeft + x, clientY := env.rectTop + y,
        targetResizeHandle := none } =
      some { startDrawing s0 sx sy with
        currentRect := { x := min sx x, y := min sy y,
                         width := |x - sx|, height := |y - sy| } } := by
    simp only [handleMouseMove, hready, if_true, startDrawing, hxx, hyy]
  rw [hdown, Option.some_bind, hmove, Option.some_bind]
  by_cases hc : 5 < |x - sx| ∧ 5 < |y - sy|
  · have hup := handleMouseUp_commit env
      { startDrawing s0 sx sy with
        currentRect := { x := min sx x, y := min sy y,
                         width := |x - sx|, height := |y - sy| } }
      newId rfl hc.1 hc.2 himg
    refine ⟨_, hup, ?_, ?_, ?_⟩
    · refine iff_of_true ?_ hc
      simp [clearTransient, startDrawing]
    · intro _
      exact ⟨rfl, rfl⟩
    · intro hnc
      exact absurd hc hnc
  · have hup := handleMouseUp_nocommit env
      { startDrawing s0 sx sy with
        currentRect := { x := min sx x, y := min sy y,
                         width := |x - sx|, height := |y - sy| } }
      newId rfl hc
    refine ⟨_, hup, ?_, ?_, ?_⟩
    · exact iff_of_false (by simp [clearTransient, startDrawing]) hc
    · intro hcc
      exact absurd hcc hc
    · intro _
      rfl

/-- C1 witness: at 800 × 600, drawing from (100, 100) to (300, 250)
commits exactly one annotation with ratios (0.125, 1/6, 0.25, 0.25) and
selects index 0. -/
theorem draw_commit_iff_witness :
    ∃ s3,
      ((handleMouseDown wEnv Tool.draw (idleState [] none)
          { clientX := wEnv.rectLeft + 100, clientY := wEnv.rectTop + 100,
            targetResizeHandle := none }).bind
        (fun s1 => handleMouseMove wEnv s1
          { clientX := wEnv.rectLeft + 300, clientY := wEnv.rectTop + 250,
            targetResizeHandle := none })).bind
        (fun s2 => handleMouseUp wEnv s2 "id1") = some s3 ∧
      (s3.annotations.length = (idleState [] none).annotations.length + 1 ↔
        5 < |(300:ℚ) - 100| ∧ 5 < |(250:ℚ) - 100|) ∧
      (5 < |(300:ℚ) - 100| ∧ 5 < |(250:ℚ) - 100| →
        s3.annotations = (idleState [] none).annotations ++
          [newAnnOfRect "id1"
            { x := min 100 300, y := min 100 250, width := |(300:ℚ) - 100|,
              height := |(250:ℚ) - 100| } wEnv.displayedWidth wEnv.displayedHeight] ∧
        s3.selectedAnnotationIndex = some (idleState [] none).annotations.length) ∧
      (¬(5 < |(300:ℚ) - 100| ∧ 5 < |(250:ℚ) - 100|) →
        s3.annotations = (idleState [] none).annotations) :=
  draw_commit_iff wEnv (idleState [] none) 100 100 300 250 "id1" rfl
    (by norm_num [wEnv]) (by norm_num [wEnv])

/-- Dragging branch of `handleMouseMove`: the move succeeds, the selected
annotation's position ratios are rewritten from the clamped candidate
top-left, and every other entry (and the list length) is unchanged. -/
theorem handleMouseMove_drag_eq (env : Env) (s : EngineState) (ev : MouseEvent)
    (i : Nat) (a : Ann)
    (hready : env.ready = true) (hdraw : s.isDrawing = false)
    (hdrag : s.isDraggingAnn = true) (hsel : s.selectedAnnotationIndex = some i)
    (ha : s.annotations.get? i = some a) :
    ∃ s2, handleMouseMove env s ev = some s2 ∧
      s2.annotations.get? i = some
        { a with
          ratioX :=
            max 0
                (min (ev.clientX - env.rectLeft - s.dragOffset.x)
                  (env.displayedWidth - (getAnnotationPixels env a).width)) /
              env.displayedWidth
          ratioY :=
            max 0
                (min (ev.clientY - env.rectTop - s.dragOffset.y)
                  (env.displayedHeight - (getAnnotationPixels env a).height)) /
              env.displayedHeight } ∧
      s2.annotations.length = s.annotations.length ∧
      ∀ j, j ≠ i → s2.annotations.get? j = s.annotations.get? j := by
  exact ⟨_,
    by
      simp only [handleMouseMove, hready, if_true, hdraw, Bool.false_eq_true,
        if_false, hdrag, hsel, ha]
      rfl,
    by
      rw [mapWithIndex_get?, ha]
      simp,
    by simp only [mapWithIndex_length],
    by
      intro j hj
      simp only [mapWithIndex_get?, if_neg hj]
      cases s.annotations.get? j with
      | none => rfl
      | some b => simp [hj]⟩

/-- C2 (amended): a pointer-move handled in the Dragging state leaves the
dragged annotation's width/height ratios unchanged and writes a clamped
position with `ratioX*W ≥ 0`, `ratioY*H ≥ 0`, `(ratioX+ratioWidth)*W ≤ W`
and `(ratioY+ratioHeight)*H ≤ H`, for all displayed sizes `W, H > 0` —
provided the annotation's pixel width and height do not exceed the
displayed image size. -/
theorem drag_bounds_clamped (env : Env) (s : EngineState) (ev : MouseEvent)
    (i : Nat) (a : Ann)
    (hready : env.ready = true) (hdraw : s.isDrawing = false)
    (hdrag : s.isDraggingAnn = true) (hsel : s.selectedAnnotationIndex = some i)
    (ha : s.annotations.get? i = some a)
    (hW : 0 < env.displayedWidth) (hH : 0 < env.displayedHeight)
    (hfW : a.ratioWidth * env.displayedWidth ≤ env.displayedWidth)
    (hfH : a.ratioHeight * env.displayedHeight ≤ env.displayedHeight) :
    ∃ s2 a2, handleMouseMove env s ev = some s2 ∧ s2.annotations.get? i = some a2 ∧
      a2.ratioWidth = a.ratioWidth ∧ a2.ratioHeight = a.ratioHeight ∧
      0 ≤ a2.ratioX * env.displayedWidth ∧ 0 ≤ a2.ratioY * env.displayedHeight ∧
      (a2.ratioX + a2.ratioWidth) * env.displayedWidth ≤ env.displayedWidth ∧
      (a2.ratioY + a2.ratioHeight) * env.displayedHeight ≤ env.displayedHeight := by
  have himg : env.imgPresent = true := by
    have h2 := hready
    simp [Env.ready] at h2
    tauto
  have hpw : (getAnnotationPixels env a).width = a.ratioWidth * env.displayedWidth := by
    simp [getAnnotationPixels, himg]
  have hph : (getAnnotationPixels env a).height = a.ratioHeight * env.displayedHeight := by
    simp [getAnnotationPixels, himg]
  obtain ⟨s2, heq, hget, -, -⟩ :=
    handleMouseMove_drag_eq env s ev i a hready hdraw hdrag hsel ha
  refine ⟨s2, _, heq, hget, rfl, rfl, ?_, ?_, ?_, ?_⟩
  · rw [div_mul_cancel₀ _ (ne_of_gt hW)]
    exact le_max_left 0 _
  · rw [div_mul_cancel₀ _ (ne_of_gt hH)]
    exact le_max_left 0 _
  · rw [add_mul, div_mul_cancel₀ _ (ne_of_gt hW)]
    have hble : max 0 (min (ev.clientX - env.rectLeft - s.dragOffset.x)
        (env.displayedWidth - (getAnnotationPixels env a).width)) ≤
        env.displayedWidth - a.ratioWidth * env.displayedWidth := by
      rw [hpw]
      exact max_le (by linarith) (min_le_right _ _)
    linarith
  · rw [add_mul, div_mul_cancel₀ _ (ne_of_gt hH)]
    have hble : max 0 (min (ev.clientY - env.rectTop - s.dragOffset.y)
        (env.displayedHeight - (getAnnotationPixels env a).height)) ≤
        env.displayedHeight - a.ratioHeight * env.displayedHeight := by
      rw [hph]
      exact max_le (by linarith) (min_le_right _ _)
    linarith

/-- C2 counterexample: dragging an annotation wider than the image writes
position ratio 0 and keeps ratio width 2, so the right edge
`(ratioX + ratioWidth) * W = 200` exceeds `W = 100` — the claim's clamp
guarantee fails without a fit hypothesis. -/
theorem drag_bounds_cex :
    (handleMouseMove dragCexEnv dragCexState dragCexEv).bind
        (fun s2 => s2.annotations.get? 0) = some (annAt "big" 0 0 2 1) ∧
    ¬(((annAt "big" 0 0 2 1).ratioX + (annAt "big" 0 0 2 1).ratioWidth) *
        dragCexEnv.displayedWidth ≤ dragCexEnv.displayedWidth) := by
  constructor
  · obtain ⟨s2, heq, hget, -, -⟩ :=
      handleMouseMove_drag_eq dragCexEnv dragCexState dragCexEv 0 (annAt "big" 0 0 2 1)
        rfl rfl rfl rfl rfl
    rw [heq, Option.some_bind, hget]
    norm_num [annAt, getAnnotationPixels, dragCexEnv, dragCexState, dragCexEv, idleState]
  · norm_num [annAt, dragCexEnv]

/-- C2 witness: dragging a quarter-size annotation at 800 × 600 towards
(-50, -50) clamps its position to the top-left corner and keeps its
rectangle inside the image. -/
theorem drag_bounds_clamped_witness :
    ∃ s2 a2,
      handleMouseMove wEnv
          { idleState [annAt "d" (1/4) (1/4) (1/4) (1/4)] (some 0) with isDraggingAnn := true }
          { clientX := -50, clientY := -50, targetResizeHandle := none } = some s2 ∧
      s2.annotations.get? 0 = some a2 ∧
      a2.ratioWidth = (annAt "d" (1/4) (1/4) (1/4) (1/4)).ratioWidth ∧
      a2.ratioHeight = (annAt "d" (1/4) (1/4) (1/4) (1/4)).ratioHeight ∧
      0 ≤ a2.ratioX * wEnv.displayedWidth ∧ 0 ≤ a2.ratioY * wEnv.displayedHeight ∧
      (a2.ratioX + a2.ratioWidth) * wEnv.displayedWidth ≤ wEnv.displayedWidth ∧
      (a2.ratioY + a2.ratioHeight) * wEnv.displayedHeight ≤ wEnv.displayedHeight :=
  drag_bounds_clamped wEnv
    { idleState [annAt "d" (1/4) (1/4) (1/4) (1/4)] (some 0) with isDraggingAnn := true }
    { clientX := -50, clientY := -50, targetResizeHandle := none }
    0 (annAt "d" (1/4) (1/4) (1/4) (1/4)) rfl rfl rfl rfl rfl
    (by norm_num [wEnv]) (by norm_num [wEnv])
    (by norm_num [annAt, wEnv]) (by norm_num [annAt, wEnv])

/-- Resizing branch of `handleMouseMove`: the move succeeds, the selected
annotation's full rectangle is rewritten from the per-handle transform of
the anchor rectangle (clamped), and every other entry (and the list
length) is unchanged. -/
theorem handleMouseMove_resize_eq (env : Env) (s : EngineState) (ev : MouseEvent)
    (i : Nat) (a : Ann) (r0 : Rect)
    (hready : env.ready = true) (hdraw : s.isDrawing = false)
    (hdrag : s.isDraggingAnn = false) (hres : s.isResizingAnn = true)
    (hsel : s.selectedAnnotationIndex = some i)
    (hinit : s.initialAnnotationRect = some r0)
    (ha : s.annotations.get? i = some a) :
    ∃ s2, handleMouseMove env s ev = some s2 ∧
      s2.annotations.get? i = some
        { a with
          ratioX :=
            (clampResized
                (applyResizeHandle s.resizeHandle r0
                  (ev.clientX - env.rectLeft - s.initialMousePos.x)
                  (ev.clientY - env.rectTop - s.initialMousePos.y))
                env.displayedWidth env.displayedHeight).x / env.displayedWidth
          ratioY :=
            (clampResized
                (applyResizeHandle s.resizeHandle r0
                  (ev.clientX - env.rectLeft - s.initialMousePos.x)
                  (ev.clientY - env.rectTop - s.initialMousePos.y))
                env.displayedWidth env.displayedHeight).y / env.displayedHeight
          ratioWidth :=
            (clampResized
                (applyResizeHandle s.resizeHandle r0
                  (ev.clientX - env.rectLeft - s.initialMousePos.x)
                  (ev.clientY - env.rectTop - s.initialMousePos.y))
                env.displayedWidth env.displayedHeight).width / env.displayedWidth
          ratioHeight :=
            (clampResized
                (applyResizeHandle s.resizeHandle r0
                  (ev.clientX - env.rectLeft - s.initialMousePos.x)
                  (ev.clientY - env.rectTop - s.initialMousePos.y))
                env.displayedWidth env.displayedHeight).height / env.displayedHeight } ∧
      s2.annotations.length = s.annotations.length ∧
      ∀ j, j ≠ i → s2.annotations.get? j = s.annotations.get? j := by
  exact ⟨_,
    by
      simp only [handleMouseMove, hready, if_true, hdraw, Bool.false_eq_true,
        if_false, hdrag, hres, hsel, hinit]
      rfl,
    by
      rw [mapWithIndex_get?, ha]
      simp,
    by simp only [mapWithIndex_length],
    by
      intro j hj
      rw [mapWithIndex_get?]
      cases s.annotations.get? j with
      | none => rfl
      | some b => simp [hj]⟩

/-- The clamped resize result never has width or height below 10. -/
theorem clampResized_floor (r : Rect) (dW dH : ℚ) :
    10 ≤ (clampResized r dW dH).width ∧ 10 ≤ (clampResized r dW dH).height :=
  ⟨le_max_right r.width 10, le_max_right r.height 10⟩

/-- C5: in the Resizing state every pointer-move writes width and height
ratios whose pixel values are at least the 10px floor, whatever the
handle; and with the se handle the written width and height ratios are
monotone in the pointer delta from the anchor position. -/
theorem resize_floor_se_monotone (env : Env) (s : EngineState)
    (i : Nat) (a : Ann) (r0 : Rect)
    (hready : env.ready = true) (hdraw : s.isDrawing = false)
    (hdrag : s.isDraggingAnn = false) (hres : s.isResizingAnn = true)
    (hsel : s.selectedAnnotationIndex = some i)
    (hinit : s.initialAnnotationRect = some r0)
    (ha : s.annotations.get? i = some a)
    (hW : 0 < env.displayedWidth) (hH : 0 < env.displayedHeight) :
    (∀ ev : MouseEvent, ∃ a2,
        (handleMouseMove env s ev).bind (fun s2 => s2.annotations.get? i) = some a2 ∧
        10 ≤ a2.ratioWidth * env.displayedWidth ∧
        10 ≤ a2.ratioHeight * env.displayedHeight) ∧
    (s.resizeHandle = some Handle.se →
      ∀ ev ev2 : MouseEvent, ev.clientX ≤ ev2.clientX → ev.clientY ≤ ev2.clientY →
        ∀ a1 a2,
          (handleMouseMove env s ev).bind (fun t => t.annotations.get? i) = some a1 →
          (handleMouseMove env s ev2).bind (fun t => t.annotations.get? i) = some a2 →
          a1.ratioWidth ≤ a2.ratioWidth ∧ a1.ratioHeight ≤ a2.ratioHeight) := by
  constructor
  · intro ev
    obtain ⟨s2, heq, hget, -, -⟩ :=
      handleMouseMove_resize_eq env s ev i a r0 hready hdraw hdrag hres hsel hinit ha
    refine ⟨_, by rw [heq, Option.some_bind, hget], ?_, ?_⟩
    · rw [div_mul_cancel₀ _ (ne_of_gt hW)]
      exact (clampResized_floor _ _ _).1
    · rw [div_mul_cancel₀ _ (ne_of_gt hH)]
      exact (clampResized_floor _ _ _).2
  · intro hse ev ev2 hx hy a1 a2 h1 h2
    obtain ⟨s01, heq1, hget1, -, -⟩ :=
      handleMouseMove_resize_eq env s ev i a r0 hready hdraw hdrag hres hsel hinit ha
    obtain ⟨s02, heq2, hget2, -, -⟩ :=
      handleMouseMove_resize_eq env s ev2 i a r0 hready hdraw hdrag hres hsel hinit ha
    rw [heq1, Option.some_bind, hget1] at h1
    rw [heq2, Option.some_bind, hget2] at h2
    obtain rfl := Option.some.inj h1
    obtain rfl := Option.some.inj h2
    rw [hse]
    constructor
    · show (clampResized (applyResizeHandle (some Handle.se) r0 _ _) _ _).width /
          env.displayedWidth ≤
        (clampResized (applyResizeHandle (some Handle.se) r0 _ _) _ _).width /
          env.displayedWidth
      simp only [clampResized, applyResizeHandle]
      gcongr
    · show (clampResized (applyResizeHandle (some Handle.se) r0 _ _) _ _).height /
          env.displayedHeight ≤
        (clampResized (applyResizeHandle (some Handle.se) r0 _ _) _ _).height /
          env.displayedHeight
      simp only [clampResized, applyResizeHandle]
      gcongr

/-- C5 witness: the floor and se-monotonicity statement instantiated at
the concrete resize state over an 800 × 600 image. -/
theorem resize_floor_se_monotone_witness :
    (∀ ev : MouseEvent, ∃ a2,
        (handleMouseMove wEnv resizeWState ev).bind
          (fun s2 => s2.annotations.get? 0) = some a2 ∧
        10 ≤ a2.ratioWidth * wEnv.displayedWidth ∧
        10 ≤ a2.ratioHeight * wEnv.displayedHeight) ∧
    (resizeWState.resizeHandle = some Handle.se →
      ∀ ev ev2 : MouseEvent, ev.clientX ≤ ev2.clientX → ev.clientY ≤ ev2.clientY →
        ∀ a1 a2,
          (handleMouseMove wEnv resizeWState ev).bind
            (fun t => t.annotations.get? 0) = some a1 →
          (handleMouseMove wEnv resizeWState ev2).bind
            (fun t => t.annotations.get? 0) = some a2 →
          a1.ratioWidth ≤ a2.ratioWidth ∧ a1.ratioHeight ≤ a2.ratioHeight) :=
  resize_floor_se_monotone wEnv resizeWState 0 (annAt "r" (1/8) (1/8) (1/4) (1/4))
    { x := 100, y := 75, width := 200, height := 150 }
    rfl rfl rfl rfl rfl rfl rfl (by norm_num [wEnv]) (by norm_num [wEnv])

/-- C9: a pointer-move handled in the Dragging or Resizing state with
selected index `i` replaces the annotation list with one of the same
length, leaves every entry at an index other than `i` unchanged, and
keeps the id and apiDetails of the entry at `i` — only its ratio fields
are rewritten. -/
theorem move_frame_effect (env : Env) (s : EngineState) (ev : MouseEvent)
    (i : Nat) (a : Ann)
    (hready : env.ready = true) (hdraw : s.isDrawing = false)
    (hsel : s.selectedAnnotationIndex = some i)
    (ha : s.annotations.get? i = some a)
    (hactive : s.isDraggingAnn = true ∨
      (s.isDraggingAnn = false ∧ s.isResizingAnn = true ∧
        ∃ r0, s.initialAnnotationRect = some r0)) :
    ∃ s2, handleMouseMove env s ev = some s2 ∧
      s2.annotations.length = s.annotations.length ∧
      (∀ j, j ≠ i → s2.annotations.get? j = s.annotations.get? j) ∧
      ∃ a2, s2.annotations.get? i = some a2 ∧
        a2.id = a.id ∧ a2.apiDetails = a.apiDetails := by
  rcases hactive with hdrag | ⟨hndrag, hres, r0, hinit⟩
  · obtain ⟨s2, heq, hget, hlen, hframe⟩ :=
      handleMouseMove_drag_eq env s ev i a hready hdraw hdrag hsel ha
    exact ⟨s2, heq, hlen, hframe, _, hget, rfl, rfl⟩
  · obtain ⟨s2, heq, hget, hlen, hframe⟩ :=
      handleMouseMove_resize_eq env s ev i a r0 hready hdraw hndrag hres hsel hinit ha
    exact ⟨s2, heq, hlen, hframe, _, hget, rfl, rfl⟩

/-- C9 witness: the frame property instantiated for a drag move over a
two-annotation list with index 1 selected. -/
theorem move_frame_effect_witness :
    ∃ s2, handleMouseMove wEnv
        { idleState [annAt "k0" 0 0 (1/8) (1/8), annAt "k1" (1/2) (1/2) (1/8) (1/8)]
            (some 1) with isDraggingAnn := true }
        { clientX := 400, clientY := 300, targetResizeHandle := none } = some s2 ∧
      s2.annotations.length =
        ({ idleState [annAt "k0" 0 0 (1/8) (1/8), annAt "k1" (1/2) (1/2) (1/8) (1/8)]
            (some 1) with isDraggingAnn := true } : EngineState).annotations.length ∧
      (∀ j, j ≠ 1 → s2.annotations.get? j =
        ({ idleState [annAt "k0" 0 0 (1/8) (1/8), annAt "k1" (1/2) (1/2) (1/8) (1/8)]
            (some 1) with isDraggingAnn := true } : EngineState).annotations.get? j) ∧
      ∃ a2, s2.annotations.get? 1 = some a2 ∧
        a2.id = (annAt "k1" (1/2) (1/2) (1/8) (1/8)).id ∧
        a2.apiDetails = (annAt "k1" (1/2) (1/2) (1/8) (1/8)).apiDetails :=
  move_frame_effect wEnv
    { idleState [annAt "k0" 0 0 (1/8) (1/8), annAt "k1" (1/2) (1/2) (1/8) (1/8)]
        (some 1) with isDraggingAnn := true }
    { clientX := 400, clientY := 300, targetResizeHandle := none }
    1 (annAt "k1" (1/2) (1/2) (1/8) (1/8)) rfl rfl rfl rfl (Or.inl rfl)

/-- C10: every annotation committed by a completed drawing interaction is
created with apiDetails whose name, endpoint, requestBody, responseBody
and description are empty, whose method is GET, and whose parameters list
is empty. -/
theorem commit_default_details (env : Env) (s : EngineState) (newId : String)
    (hdraw : s.isDrawing = true)
    (hcw : 5 < s.currentRect.width) (hch : 5 < s.currentRect.height)
    (himg : env.imgPresent = true) :
    ∃ s2 a2, handleMouseUp env s newId = some s2 ∧
      s2.annotations.getLast? = some a2 ∧
      a2.apiDetails = defaultApiDetails ∧
      a2.apiDetails.name = "" ∧ a2.apiDetails.endpoint = "" ∧
      a2.apiDetails.method = "GET" ∧ a2.apiDetails.requestBody = "" ∧
      a2.apiDetails.responseBody = "" ∧ a2.apiDetails.parameters = [] ∧
      a2.apiDetails.description = "" := by
  have hup := handleMouseUp_commit env s newId hdraw hcw hch himg
  exact ⟨_, newAnnOfRect newId s.currentRect env.displayedWidth env.displayedHeight,
    hup, List.getLast?_concat _, rfl, rfl, rfl, rfl, rfl, rfl, rfl, rfl⟩

/-- C10 witness: committing a 200 × 150 preview at 800 × 600 appends an
annotation carrying the default metadata. -/
theorem commit_default_details_witness :
    ∃ s2 a2, handleMouseUp wEnv
        { idleState [] none with
          isDrawing := true
          currentRect := { x := 100, y := 100, width := 200, height := 150 } }
        "id9" = some s2 ∧
      s2.annotations.getLast? = some a2 ∧
      a2.apiDetails = defaultApiDetails ∧
      a2.apiDetails.name = "" ∧ a2.apiDetails.endpoint = "" ∧
      a2.apiDetails.method = "GET" ∧ a2.apiDetails.requestBody = "" ∧
      a2.apiDetails.responseBody = "" ∧ a2.apiDetails.parameters = [] ∧
      a2.apiDetails.description = "" :=
  commit_default_details wEnv
    { idleState [] none with
      isDrawing := true
      currentRect := { x := 100, y := 100, width := 200, height := 150 } }
    "id9" rfl (by norm_num) (by norm_num) rfl

/-- C7 (failing input): against a zero-sized image every annotation's
pixel rectangle degenerates to (0, 0, 0, 0), which contains the local
point (0, 0) under the inclusive hit test; so the hit test reports a hit
(index 0) instead of treating the zero-sized image as no hit, and a
select-tool pointer-down there enters the Dragging state. -/
theorem zero_size_image_hit :
    hitTest zeroEnv [annAt "a1" (1/4) (1/4) (1/2) (1/2)] 0 0 = some 0 ∧
    (handleMouseDown zeroEnv Tool.select
        (idleState [annAt "a1" (1/4) (1/4) (1/2) (1/2)] none)
        { clientX := 0, clientY := 0, targetResizeHandle := none }).map
      (fun s2 => s2.isDraggingAnn) = some true := by
  constructor
  · norm_num [hitTest, findIndex, findIndexFrom, rectContains, getAnnotationPixels,
      zeroEnv, annAt]
  · norm_num [handleMouseDown, Env.ready, zeroEnv, idleState, hitTest, findIndex,
      findIndexFrom, rectContains, getAnnotationPixels, annAt]
